import Mathlib

/-!
Verification of the SplitMind agent-communication MCP server
(`mcp-server-redis.py`) against its natural-language specification.

The server's durable state lives in a Redis-compatible store; every key is
namespaced by a project id (`_get_key` joins `project:{id}`, a kind, and
further arguments).  We embed the store shallowly: each Redis hash is an
association list keyed by the pair `(project_id, field)`, and Redis lists are
association-list entries whose value is a Lean `List`.  Handlers are pure
state transformers `Store → Store × Result`; wall-clock timestamps
(`datetime.now()`) are threaded as an explicit `now : String` argument, and
`self.heartbeat_timeout` as an explicit `hbT : Nat`.
-/

namespace SplitMind

/-- A key into a project-scoped Redis structure: `(project_id, field)`. -/
abbrev PKey := String × String

/-- Agent record stored in the `project:{id}:agents` hash (`register_agent`). -/
structure AgentData where
  task_id : String
  branch : String
  description : String
  status : String
  started_at : String
  project_id : String
deriving DecidableEq, Repr

/-- Todo item stored in the `project:{id}:todos:{session}` list (`add_todo`). -/
structure TodoItem where
  id : String
  text : String
  status : String
  priority : Nat
  created_at : String
  completed_at : Option String
deriving DecidableEq, Repr

/-- File-lock record stored in the `project:{id}:locks` hash
(`announce_file_change`). -/
structure LockData where
  session : String
  locked_at : String
  change_type : String
  description : String
deriving DecidableEq, Repr

/-- Entry of the `project:{id}:recent_changes` list. -/
structure ChangeRecord where
  session : String
  file_path : String
  change_type : String
  description : String
  timestamp : String
deriving DecidableEq, Repr

/-- Entry of the `project:{id}:interfaces` hash (`register_interface`). -/
structure InterfaceData where
  definition : String
  registered_by : String
  file_path : Option String
  timestamp : String
deriving DecidableEq, Repr

/-- Entry of the `project:{id}:completed_tasks` hash (`mark_task_completed`). -/
structure CompletionData where
  task_id : String
  session_name : String
  completed_at : String
deriving DecidableEq, Repr

/-- Todo summary computed by `unregister_agent`. -/
structure TodoSummary where
  total : Nat
  completed : Nat
  pending : Nat
  in_progress : Nat
deriving DecidableEq, Repr

/-- Payload of an internal event dict passed to `_broadcast_event`.  The
Python code builds plain dicts with a `type` tag; we model each shape as a
constructor. -/
inductive EventMsg where
  | agent_joined (session_name description : String)
  | agent_left (session : String) (task_id : String) (todo_summary : TodoSummary)
  | file_change_announced (session file_path change_type description : String)
  | file_lock_released (session file_path : String)
  | interface_registered (session interface_name definition : String)
  | todo_completed (session_name todo_id : String)
deriving DecidableEq, Repr

/-- A JSON message living in a `project:{id}:messages:{session}` inbox list.
`query_agent` builds a `type: "query"` dict, `respond_to_query` a
`type: "response"` dict, `broadcast_message` a `type: "broadcast"` dict, and
`_broadcast_event` pushes event dicts.  The Python `from` field is called
`from_` here (`from` is reserved in Lean). -/
inductive Message where
  | query (id from_ query_type content timestamp : String) (requires_response : Bool)
  | response (id from_ response_to content timestamp : String)
  | broadcast (from_ message_type content timestamp : String)
  | event (ev : EventMsg) (timestamp : String)
deriving DecidableEq, Repr

/-- `msg["content"]` / `msg.get("content")`: event dicts carry no `content`
field. -/
def Message.content : Message → Option String
  | .query _ _ _ c _ _ => some c
  | .response _ _ _ c _ => some c
  | .broadcast _ _ c _ => some c
  | .event _ _ => none

/-- Redis `HGET`: first binding of the key in the association list. -/
def hget {α β : Type} [DecidableEq α] : List (α × β) → α → Option β
  | [], _ => none
  | (k0, v0) :: rest, k => if k0 = k then some v0 else hget rest k

/-- Redis `HSET`: overwrite the first binding in place, or append. -/
def hset {α β : Type} [DecidableEq α] : List (α × β) → α → β → List (α × β)
  | [], k, v => [(k, v)]
  | (k0, v0) :: rest, k, v =>
    if k0 = k then (k, v) :: rest else (k0, v0) :: hset rest k v

/-- Redis `HDEL` / `DEL`: remove every binding of the key. -/
def hdel {α β : Type} [DecidableEq α] : List (α × β) → α → List (α × β)
  | [], _ => []
  | (k0, v0) :: rest, k =>
    if k0 = k then hdel rest k else (k0, v0) :: hdel rest k

/-- Redis `HEXISTS`. -/
def hexists {α β : Type} [DecidableEq α] (l : List (α × β)) (k : α) : Bool :=
  (hget l k).isSome

/-- Redis `LRANGE key 0 -1`: an absent key reads as the empty list. -/
def lrangeAll {κ μ : Type} [DecidableEq κ] (m : List (κ × List μ)) (k : κ) : List μ :=
  (hget m k).getD []

/-- Redis `RPUSH` of a single element (creates the key if absent). -/
def rpush {κ μ : Type} [DecidableEq κ] (m : List (κ × List μ)) (k : κ) (x : μ) :
    List (κ × List μ) :=
  hset m k (lrangeAll m k ++ [x])

/-- Redis `LPUSH` of a single element. -/
def lpush {κ μ : Type} [DecidableEq κ] (m : List (κ × List μ)) (k : κ) (x : μ) :
    List (κ × List μ) :=
  hset m k (x :: lrangeAll m k)

/-- Redis `LTRIM key 0 99`: keep the first 100 elements. -/
def ltrim100 {κ μ : Type} [DecidableEq κ] (m : List (κ × List μ)) (k : κ) :
    List (κ × List μ) :=
  hset m k ((lrangeAll m k).take 100)

/-- The whole Redis keyspace used by the server, one field per key kind of
`_get_key`.  `heartbeat` values record the `(ttl, value)` pair passed to
`SETEX`; `status_files` models the `/tmp/splitmind-status/{session}.status`
drop files written by `mark_task_completed` (session ↦ file content). -/
structure Store where
  agents : List (PKey × AgentData)
  heartbeat : List (PKey × (Nat × String))
  inbox : List (PKey × List Message)
  todos : List (PKey × List TodoItem)
  locks : List (PKey × LockData)
  recent_changes : List (String × List ChangeRecord)
  interfaces : List (PKey × InterfaceData)
  completed_tasks : List (PKey × CompletionData)
  status_files : List (String × String)
deriving DecidableEq, Repr

/-- The store with no keys at all. -/
def emptyStore : Store :=
  { agents := [], heartbeat := [], inbox := [], todos := [], locks := [],
    recent_changes := [], interfaces := [], completed_tasks := [],
    status_files := [] }

/-- Server configuration assembled by `AgentCommunicationServer.__init__`:
`redis_url` comes from the constructor argument or the `REDIS_URL`
environment variable; `heartbeat_timeout` is assigned the literal `120`
(no environment variable is consulted for it). -/
structure ServerConfig where
  redis_url : String
  heartbeat_timeout : Nat
deriving DecidableEq, Repr

/-- `os.getenv`. -/
def getenv (env : List (String × String)) (k : String) : Option String :=
  hget env k

/-- `AgentCommunicationServer.__init__(redis_url)`. -/
def serverInit (env : List (String × String)) (redis_url : Option String) :
    ServerConfig :=
  { redis_url := redis_url.getD ((getenv env "REDIS_URL").getD "redis:\x2f\x2flocalhost:6379"),
    heartbeat_timeout := 120 }

/-- `_update_heartbeat`: `SETEX(project:{p}:heartbeat:{s}, heartbeat_timeout, now)`. -/
def update_heartbeat (st : Store) (hbT : Nat) (project_id session_name now : String) :
    Store :=
  { st with heartbeat := hset st.heartbeat (project_id, session_name) (hbT, now) }

/-- `HKEYS(project:{p}:agents)`: session names registered in one project. -/
def hkeysP (agents : List (PKey × AgentData)) (project_id : String) : List String :=
  (agents.filter (fun e => e.1.1 == project_id)).map (fun e => e.1.2)

/-- `_broadcast_event`: push the event (with its timestamp set) onto the inbox
of every agent of the project except `exclude`. -/
def broadcast_event (st : Store) (project_id : String) (ev : EventMsg) (now : String)
    (exclude : Option String) : Store :=
  { st with
    inbox := (hkeysP st.agents project_id).foldl
      (fun ib agent_session =>
        if some agent_session = exclude then ib
        else rpush ib (project_id, agent_session) (Message.event ev now))
      st.inbox }

/-- Inbox contents of `(project, session)` (absent key = empty). -/
def inboxOf (st : Store) (project_id session_name : String) : List Message :=
  lrangeAll st.inbox (project_id, session_name)

/-- Result of `register_agent` (the human-readable `message` field of the
JSON reply is omitted). -/
structure RegisterResult where
  status : String
  project_id : String
  session_name : String
  other_active_agents : List String
deriving DecidableEq, Repr

/-- `register_agent`: store the agent record, arm the heartbeat, clear old
todos, broadcast `agent_joined` to the others, and report the other
registered session names. -/
def register_agent (st : Store) (hbT : Nat)
    (project_id session_name task_id branch description now : String) :
    Store × RegisterResult :=
  let agent_data : AgentData :=
    { task_id := task_id, branch := branch, description := description,
      status := "active", started_at := now, project_id := project_id }
  let st1 := { st with agents := hset st.agents (project_id, session_name) agent_data }
  let st2 := update_heartbeat st1 hbT project_id session_name now
  let st3 := { st2 with todos := hdel st2.todos (project_id, session_name) }
  let st4 := broadcast_event st3 project_id
    (EventMsg.agent_joined session_name description) now (some session_name)
  let other_agents := (hkeysP st4.agents project_id).filter (fun s => s != session_name)
  (st4,
   { status := "registered", project_id := project_id, session_name := session_name,
     other_active_agents := other_agents })

/-- The `heartbeat` tool: re-arm and reply `{"status": "ok"}`. -/
def heartbeat_tool (st : Store) (hbT : Nat) (project_id session_name now : String) :
    Store × String :=
  (update_heartbeat st hbT project_id session_name now, "ok")

/-- Effects (store deletions) performed by the cleanup cascade, in execution
order. -/
inductive Eff where
  | hdelLock (project_id file_path : String)
  | hdelAgent (project_id session_name : String)
  | delInbox (project_id session_name : String)
  | delTodos (project_id session_name : String)
deriving DecidableEq, Repr

/-- `Eff.hdelLock` recognizer. -/
def Eff.isLockDel : Eff → Bool
  | .hdelLock _ _ => true
  | _ => false

/-- The `for file_path, lock_data in all_locks.items()` loop of
`_cleanup_dead_agent`: `HDEL` every lock owned by the session, recording the
deletions in order. -/
def releaseLoop (items : List (PKey × LockData)) (session_name : String)
    (locks : List (PKey × LockData)) : List (PKey × LockData) × List Eff :=
  match items with
  | [] => (locks, [])
  | (key, lock_info) :: rest =>
    if lock_info.session = session_name then
      let r := releaseLoop rest session_name (hdel locks key)
      (r.1, Eff.hdelLock key.1 key.2 :: r.2)
    else releaseLoop rest session_name locks

/-- `_cleanup_dead_agent`: release the session's file locks, then remove the
agent record, then delete the message queue, then delete the todos.  The
second component is the ordered deletion trace. -/
def cleanup_dead_agent (st : Store) (project_id session_name : String) :
    Store × List Eff :=
  let all_locks := st.locks.filter (fun e => e.1.1 == project_id)
  let r := releaseLoop all_locks session_name st.locks
  let st1 := { st with locks := r.1 }
  let st2 := { st1 with agents := hdel st1.agents (project_id, session_name) }
  let st3 := { st2 with inbox := hdel st2.inbox (project_id, session_name) }
  let st4 := { st3 with todos := hdel st3.todos (project_id, session_name) }
  (st4, r.2 ++ [Eff.hdelAgent project_id session_name,
                Eff.delInbox project_id session_name,
                Eff.delTodos project_id session_name])

/-- `add_todo`: append a fresh pending item; the id is
`"todo-" ++ timestamp`.  Returns the todo id. -/
def add_todo (st : Store) (hbT : Nat) (project_id session_name todo_item : String)
    (priority : Nat) (now : String) : Store × String :=
  let todo : TodoItem :=
    { id := "todo-" ++ now, text := todo_item, status := "pending",
      priority := priority, created_at := now, completed_at := none }
  let st1 := { st with todos := rpush st.todos (project_id, session_name) todo }
  let st2 := update_heartbeat st1 hbT project_id session_name now
  (st2, todo.id)

/-- `update_todo`: rewrite the item with the matching id, replace the list,
broadcast `todo_completed` when completing, re-arm the heartbeat.  Returns
`"updated"` or `"not_found"`. -/
def update_todo (st : Store) (hbT : Nat)
    (project_id session_name todo_id status now : String) : Store × String :=
  let todos := lrangeAll st.todos (project_id, session_name)
  let updated := todos.any (fun t => t.id == todo_id)
  let new_todos := todos.map (fun t =>
    if t.id == todo_id then
      { t with status := status,
               completed_at := if status == "completed" then some now else t.completed_at }
    else t)
  let st1 :=
    if updated then
      { st with todos :=
          if new_todos.isEmpty then hdel st.todos (project_id, session_name)
          else hset st.todos (project_id, session_name) new_todos }
    else st
  let st2 :=
    if updated && status == "completed" then
      broadcast_event st1 project_id (EventMsg.todo_completed session_name todo_id) now none
    else st1
  let st3 := update_heartbeat st2 hbT project_id session_name now
  (st3, if updated then "updated" else "not_found")

/-- `get_my_todos`. -/
def get_my_todos (st : Store) (hbT : Nat) (project_id session_name now : String) :
    Store × List TodoItem :=
  (update_heartbeat st hbT project_id session_name now,
   lrangeAll st.todos (project_id, session_name))

/-- The matching test of `_wait_for_response`:
`msg.get("type") == "response" and msg.get("response_to") == message_id and
msg.get("from") == from_session`. -/
def isMatchingResponse (message_id from_session : String) (m : Message) : Bool :=
  match m with
  | Message.response _ f rto _ _ => rto == message_id && f == from_session
  | _ => false

/-- `_wait_for_response`: poll the inbox of `to_session` for a message
matching `isMatchingResponse`; on a match, `LREM` that element and return its
content.  `polls` is the number of 0.5 s polling rounds left before the
deadline; between rounds the handler only sleeps, so in this sequential
embedding the store is unchanged from one round to the next. -/
def wait_for_response (st : Store)
    (project_id from_session to_session message_id : String) (polls : Nat) :
    Option String × Store :=
  match polls with
  | 0 => (none, st)
  | Nat.succ n =>
    let messages_raw := lrangeAll st.inbox (project_id, to_session)
    match messages_raw.find? (isMatchingResponse message_id from_session) with
    | some m =>
      (m.content,
       { st with inbox := hset st.inbox (project_id, to_session) (messages_raw.erase m) })
    | none => wait_for_response st project_id from_session to_session message_id n

/-- Result of `query_agent` (one constructor per JSON shape it returns). -/
inductive QueryResult where
  | unknown_recipient (error : String)
  | sent (message_id : String)
  | received (response : String)
  | timeout (error : String)
deriving DecidableEq, Repr

/-- `query_agent`: refuse unknown recipients, enqueue the query on the
target's inbox, re-arm the sender's heartbeat, and either return `sent` or
block on `_wait_for_response`.  The message id is
`f"{from_session}-{datetime.now().timestamp()}"`, embedded as
`from_session ++ "-" ++ now`. -/
def query_agent (st : Store) (hbT : Nat)
    (project_id from_session to_session query_type query : String)
    (wait_for_resp : Bool) (timeout_polls : Nat) (now : String) :
    Store × QueryResult :=
  if !(hexists st.agents (project_id, to_session)) then
    (st, QueryResult.unknown_recipient
      ("Agent " ++ to_session ++ " not found in project " ++ project_id))
  else
    let message_id := from_session ++ "-" ++ now
    let message := Message.query message_id from_session query_type query now wait_for_resp
    let st1 := { st with inbox := rpush st.inbox (project_id, to_session) message }
    let st2 := update_heartbeat st1 hbT project_id from_session now
    if !wait_for_resp then (st2, QueryResult.sent message_id)
    else
      let r := wait_for_response st2 project_id from_session to_session message_id timeout_polls
      (r.2,
       match r.1 with
       | some resp => QueryResult.received resp
       | none => QueryResult.timeout "No response received")

/-- `check_messages`: `LRANGE` the whole inbox, `DEL` the key, re-arm the
heartbeat, return the messages. -/
def check_messages (st : Store) (hbT : Nat) (project_id session_name now : String) :
    Store × List Message :=
  let messages := lrangeAll st.inbox (project_id, session_name)
  let st1 := { st with inbox := hdel st.inbox (project_id, session_name) }
  let st2 := update_heartbeat st1 hbT project_id session_name now
  (st2, messages)

/-- `respond_to_query`: push a `type: "response"` message onto `to_session`'s
inbox and re-arm `from_session`'s heartbeat. -/
def respond_to_query (st : Store) (hbT : Nat)
    (project_id from_session to_session message_id response now : String) :
    Store × String :=
  let response_msg :=
    Message.response ("response-" ++ message_id) from_session message_id response now
  let st1 := { st with inbox := rpush st.inbox (project_id, to_session) response_msg }
  let st2 := update_heartbeat st1 hbT project_id from_session now
  (st2, "response_sent")

/-- Result of `announce_file_change`. -/
inductive AnnounceResult where
  | conflict (lock_info : LockData)
  | locked (file_path : String)
deriving DecidableEq, Repr

/-- The fall-through body of `announce_file_change` once the conflict check
has passed: write the lock, prepend a recent-change entry (trim to 100),
broadcast `file_change_announced` excluding the caller, re-arm the
heartbeat. -/
def announce_write (st : Store) (hbT : Nat)
    (project_id session_name file_path change_type description now : String) :
    Store × AnnounceResult :=
  let lock_data : LockData :=
    { session := session_name, locked_at := now, change_type := change_type,
      description := description }
  let st1 := { st with locks := hset st.locks (project_id, file_path) lock_data }
  let change_record : ChangeRecord :=
    { session := session_name, file_path := file_path, change_type := change_type,
      description := description, timestamp := now }
  let st2 := { st1 with
    recent_changes := ltrim100 (lpush st1.recent_changes project_id change_record) project_id }
  let st3 := broadcast_event st2 project_id
    (EventMsg.file_change_announced session_name file_path change_type description)
    now (some session_name)
  let st4 := update_heartbeat st3 hbT project_id session_name now
  (st4, AnnounceResult.locked file_path)

/-- `announce_file_change`: return `conflict` (with the current lock info)
when the path is locked by a different session, otherwise write the lock. -/
def announce_file_change (st : Store) (hbT : Nat)
    (project_id session_name file_path change_type description now : String) :
    Store × AnnounceResult :=
  match hget st.locks (project_id, file_path) with
  | some lock_info =>
    if lock_info.session != session_name then
      (st, AnnounceResult.conflict lock_info)
    else
      announce_write st hbT project_id session_name file_path change_type description now
  | none =>
    announce_write st hbT project_id session_name file_path change_type description now

/-- Result of `release_file_lock`. -/
inductive ReleaseResult where
  | not_locked
  | not_owner (error : String)
  | released (file_path : String)
deriving DecidableEq, Repr

/-- `release_file_lock`: `not_locked` when the path is free, an error when
the lock belongs to someone else, otherwise delete the lock, broadcast
`file_lock_released`, re-arm the heartbeat. -/
def release_file_lock (st : Store) (hbT : Nat)
    (project_id session_name file_path now : String) : Store × ReleaseResult :=
  match hget st.locks (project_id, file_path) with
  | none => (st, ReleaseResult.not_locked)
  | some lock_info =>
    if lock_info.session != session_name then
      (st, ReleaseResult.not_owner ("File is locked by " ++ lock_info.session ++ ", not you"))
    else
      let st1 := { st with locks := hdel st.locks (project_id, file_path) }
      let st2 := broadcast_event st1 project_id
        (EventMsg.file_lock_released session_name file_path) now (some session_name)
      let st3 := update_heartbeat st2 hbT project_id session_name now
      (st3, ReleaseResult.released file_path)

/-- `register_interface`: write/overwrite the hash entry, broadcast
`interface_registered` excluding the caller, re-arm the heartbeat. -/
def register_interface (st : Store) (hbT : Nat)
    (project_id session_name interface_name definition : String)
    (file_path : Option String) (now : String) : Store × String :=
  let interface_data : InterfaceData :=
    { definition := definition, registered_by := session_name,
      file_path := file_path, timestamp := now }
  let st1 := { st with
    interfaces := hset st.interfaces (project_id, interface_name) interface_data }
  let st2 := broadcast_event st1 project_id
    (EventMsg.interface_registered session_name interface_name definition)
    now (some session_name)
  let st3 := update_heartbeat st2 hbT project_id session_name now
  (st3, "registered")

/-- `broadcast_message`: push a `type: "broadcast"` message onto the inbox of
every other agent of the project; return the recipient count. -/
def broadcast_message (st : Store) (hbT : Nat)
    (project_id session_name message_type content now : String) : Store × Nat :=
  let message := Message.broadcast session_name message_type content now
  let all_agents := hkeysP st.agents project_id
  let r := all_agents.foldl
    (fun (acc : List (PKey × List Message) × Nat) agent_session =>
      if agent_session != session_name then
        (rpush acc.1 (project_id, agent_session) message, acc.2 + 1)
      else acc)
    (st.inbox, 0)
  let st1 := { st with inbox := r.1 }
  let st2 := update_heartbeat st1 hbT project_id session_name now
  (st2, r.2)

/-- `mark_task_completed`: write the completion record, flip the agent
record's status to `completed` when the record exists, write the
`COMPLETED\n` status drop file, and report success.  No heartbeat update is
performed by this handler. -/
def mark_task_completed (st : Store) (project_id session_name task_id now : String) :
    Store × String :=
  let completion_data : CompletionData :=
    { task_id := task_id, session_name := session_name, completed_at := now }
  let st1 := { st with
    completed_tasks := hset st.completed_tasks (project_id, task_id) completion_data }
  let st2 :=
    match hget st1.agents (project_id, session_name) with
    | some agent_info =>
      let flipped : AgentData := { agent_info with status := "completed" }
      { st1 with agents := hset st1.agents (project_id, session_name) flipped }
    | none => st1
  let st3 := { st2 with status_files := hset st2.status_files session_name "COMPLETED\n" }
  (st3, "success")

/-- Result of `unregister_agent`. -/
inductive UnregisterResult where
  | not_found
  | unregistered (todo_summary : TodoSummary)
deriving DecidableEq, Repr

/-- `unregister_agent`: fail with `not_found` for unknown sessions; otherwise
compute the todo summary, run the cleanup cascade, and broadcast
`agent_left`. -/
def unregister_agent (st : Store) (project_id session_name now : String) :
    Store × UnregisterResult :=
  if !(hexists st.agents (project_id, session_name)) then
    (st, UnregisterResult.not_found)
  else
    let agent_info := hget st.agents (project_id, session_name)
    let todos := lrangeAll st.todos (project_id, session_name)
    let todo_summary : TodoSummary :=
      { total := todos.length,
        completed := (todos.filter (fun t => t.status == "completed")).length,
        pending := (todos.filter (fun t => t.status == "pending")).length,
        in_progress := (todos.filter (fun t => t.status == "in_progress")).length }
    let r := cleanup_dead_agent st project_id session_name
    let st2 := broadcast_event r.1 project_id
      (EventMsg.agent_left session_name ((agent_info.map (fun a => a.task_id)).getD "")
        todo_summary) now none
    (st2, UnregisterResult.unregistered todo_summary)

/-- Fixture: an agent record for session `s-1` of project `p1`. -/
def agentA : AgentData :=
  { task_id := "T1", branch := "b1", description := "d1", status := "active",
    started_at := "t", project_id := "p1" }

/-- Fixture: an agent record for session `s-2` of project `p1`. -/
def agentB : AgentData :=
  { task_id := "T2", branch := "b2", description := "d2", status := "active",
    started_at := "t", project_id := "p1" }

/-- Fixture: `s-1` and `s-2` registered in project `p1`, nothing else. -/
def twoAgentStore : Store :=
  { emptyStore with agents := [(("p1", "s-1"), agentA), (("p1", "s-2"), agentB)] }

/-- Fixture: a lock on `a.ts` held by `s-1`. -/
def lockA : LockData :=
  { session := "s-1", locked_at := "t", change_type := "create", description := "d" }

/-- Fixture: a lock on `b.ts` held by `s-2`. -/
def lockB : LockData :=
  { session := "s-2", locked_at := "t", change_type := "modify", description := "d" }

/-- Fixture: both agents registered, `s-1` holding the lock on `a.ts`. -/
def lockedStore : Store :=
  { twoAgentStore with locks := [(("p1", "a.ts"), lockA)] }

/-- Fixture: both agents registered, `s-2` holding the lock on `b.ts`. -/
def lockedStoreB : Store :=
  { twoAgentStore with locks := [(("p1", "b.ts"), lockB)] }

/-- Fixture: an unregistered session `s-1` with one stale inbox message. -/
def staleInboxStore : Store :=
  { emptyStore with inbox := [(("p1", "s-1"), [Message.broadcast "x" "note" "old" "t0"])] }

/-- The deletion order the specification prescribes for the cleanup cascade:
first the lock releases, then the todos, then the inbox, and the agent
record last. -/
def specCleanupOrder (project_id session_name : String) (tr : List Eff) : Prop :=
  tr = tr.takeWhile Eff.isLockDel ++
    [Eff.delTodos project_id session_name, Eff.delInbox project_id session_name,
     Eff.hdelAgent project_id session_name]

instance (project_id session_name : String) (tr : List Eff) :
    Decidable (specCleanupOrder project_id session_name tr) := by
  unfold specCleanupOrder
  infer_instance

section Lemmas

variable {α β : Type} [DecidableEq α]

theorem hget_hset_self (l : List (α × β)) (k : α) (v : β) :
    hget (hset l k v) k = some v := by
  induction l with
  | nil => simp [hset, hget]
  | cons e rest ih =>
    obtain ⟨k0, v0⟩ := e
    by_cases h : k0 = k
    · simp [hset, h, hget]
    · simp [hset, h, hget, ih]

theorem hget_hset_ne (l : List (α × β)) {k k' : α} (v : β) (h : k' ≠ k) :
    hget (hset l k v) k' = hget l k' := by
  induction l with
  | nil => simp [hset, hget, Ne.symm h]
  | cons e rest ih =>
    obtain ⟨k0, v0⟩ := e
    by_cases hk : k0 = k
    · subst hk
      simp [hset, hget, Ne.symm h]
    · simp only [hset, if_neg hk, hget]
      by_cases hk' : k0 = k'
      · simp [hk']
      · simp [hk', ih]

theorem hget_hdel_self (l : List (α × β)) (k : α) : hget (hdel l k) k = none := by
  induction l with
  | nil => simp [hdel, hget]
  | cons e rest ih =>
    obtain ⟨k0, v0⟩ := e
    by_cases h : k0 = k
    · simp [hdel, h, ih]
    · simp [hdel, h, hget, ih]

theorem hget_hdel_ne (l : List (α × β)) {k k' : α} (h : k' ≠ k) :
    hget (hdel l k) k' = hget l k' := by
  induction l with
  | nil => simp [hdel]
  | cons e rest ih =>
    obtain ⟨k0, v0⟩ := e
    by_cases hk : k0 = k
    · subst hk
      simp [hdel, hget, Ne.symm h, ih]
    · simp only [hdel, if_neg hk, hget]
      by_cases hk' : k0 = k'
      · simp [hk']
      · simp [hk', ih]

theorem hget_mem {l : List (α × β)} {k : α} {v : β} (h : hget l k = some v) :
    (k, v) ∈ l := by
  induction l with
  | nil => simp [hget] at h
  | cons e rest ih =>
    obtain ⟨k0, v0⟩ := e
    by_cases hk : k0 = k
    · subst hk
      simp [hget] at h
      subst h
      exact List.mem_cons_self _ _
    · simp [hget, hk] at h
      exact List.mem_cons_of_mem _ (ih h)

theorem hget_isSome_iff {l : List (α × β)} {k : α} :
    (∃ v, hget l k = some v) ↔ ∃ v, (k, v) ∈ l := by
  constructor
  · rintro ⟨v, hv⟩
    exact ⟨v, hget_mem hv⟩
  · rintro ⟨v, hv⟩
    induction l with
    | nil => simp at hv
    | cons e rest ih =>
      obtain ⟨k0, v0⟩ := e
      by_cases hk : k0 = k
      · exact ⟨v0, by simp [hget, hk]⟩
      · rcases List.mem_cons.mp hv with h | h
        · cases h
          exact absurd rfl hk
        · rcases ih h with ⟨w, hw⟩
          exact ⟨w, by simpa [hget, hk] using hw⟩

theorem mem_hdel {l : List (α × β)} {k : α} {x : α × β} (h : x ∈ hdel l k) :
    x ∈ l ∧ x.1 ≠ k := by
  induction l with
  | nil => simp [hdel] at h
  | cons e rest ih =>
    obtain ⟨k0, v0⟩ := e
    by_cases hk : k0 = k
    · subst hk
      simp only [hdel, if_pos rfl] at h
      exact ⟨List.mem_cons_of_mem _ (ih h).1, (ih h).2⟩
    · simp only [hdel, if_neg hk] at h
      rcases List.mem_cons.mp h with h' | h'
      · subst h'
        exact ⟨List.mem_cons_self _ _, hk⟩
      · exact ⟨List.mem_cons_of_mem _ (ih h').1, (ih h').2⟩

theorem mem_hkeysP {A : List (PKey × AgentData)} {p s' : String} :
    s' ∈ hkeysP A p ↔ ∃ a, ((p, s'), a) ∈ A := by
  simp only [hkeysP, List.mem_map, List.mem_filter, beq_iff_eq]
  constructor
  · rintro ⟨e, ⟨he, hp⟩, hs⟩
    refine ⟨e.2, ?_⟩
    obtain ⟨⟨q, t⟩, a⟩ := e
    simp only at hp hs
    subst hp; subst hs
    exact he
  · rintro ⟨a, ha⟩
    exact ⟨((p, s'), a), ⟨ha, rfl⟩, rfl⟩

theorem releaseLoop_mem {items : List (PKey × LockData)} {s : String}
    {locks : List (PKey × LockData)} {x : PKey × LockData}
    (h : x ∈ (releaseLoop items s locks).1) :
    x ∈ locks ∧ ∀ e ∈ items, e.2.session = s → x.1 ≠ e.1 := by
  induction items generalizing locks with
  | nil => simpa [releaseLoop] using h
  | cons e rest ih =>
    obtain ⟨key, lock_info⟩ := e
    by_cases hs : lock_info.session = s
    · simp only [releaseLoop, if_pos hs] at h
      rcases ih h with ⟨hmem, hrest⟩
      rcases mem_hdel hmem with ⟨hmem', hne⟩
      refine ⟨hmem', ?_⟩
      intro e' he' hsess
      rcases List.mem_cons.mp he' with h' | h'
      · subst h'; exact hne
      · exact hrest e' h' hsess
    · simp only [releaseLoop, if_neg hs] at h
      rcases ih h with ⟨hmem, hrest⟩
      refine ⟨hmem, ?_⟩
      intro e' he' hsess
      rcases List.mem_cons.mp he' with h' | h'
      · subst h'; exact absurd hsess hs
      · exact hrest e' h' hsess

theorem releaseLoop_trace (items : List (PKey × LockData)) (s : String)
    (locks : List (PKey × LockData)) :
    (releaseLoop items s locks).2 =
      (items.filter (fun e => e.2.session == s)).map (fun e => Eff.hdelLock e.1.1 e.1.2) := by
  induction items generalizing locks with
  | nil => simp [releaseLoop]
  | cons e rest ih =>
    obtain ⟨key, lock_info⟩ := e
    by_cases hs : lock_info.session = s
    · simp [releaseLoop, hs, ih]
    · simp [releaseLoop, hs, ih]

theorem foldl_rpush_exclude (sessions : List String) (ib : List (PKey × List Message))
    (p s q : String) (msg : Message) :
    hget (sessions.foldl (fun ib2 agent_session =>
      if some agent_session = some s then ib2
      else rpush ib2 (p, agent_session) msg) ib) (q, s) = hget ib (q, s) := by
  induction sessions generalizing ib with
  | nil => rfl
  | cons sess rest ih =>
    by_cases h : sess = s
    · have hcond : some sess = some s := by rw [h]
      rw [List.foldl_cons, if_pos hcond]
      exact ih ib
    · have hcond : ¬ some sess = some s := by simpa using h
      have hkey : ((q, s) : PKey) ≠ (p, sess) := by
        intro hh
        exact h (congrArg Prod.snd hh).symm
      rw [List.foldl_cons, if_neg hcond, ih]
      exact hget_hset_ne _ _ hkey

theorem broadcast_event_inbox_exclude (st : Store) (p : String) (ev : EventMsg)
    (now s q : String) :
    hget (broadcast_event st p ev now (some s)).inbox (q, s) = hget st.inbox (q, s) := by
  simpa only [broadcast_event] using
    foldl_rpush_exclude (hkeysP st.agents p) st.inbox p s q (Message.event ev now)

theorem wait_for_response_heartbeat (st : Store) (p f t mid : String) (n : Nat) :
    (wait_for_response st p f t mid n).2.heartbeat = st.heartbeat := by
  induction n with
  | zero => rfl
  | succ k ih =>
    simp only [wait_for_response]
    cases h : (lrangeAll st.inbox (p, t)).find? (isMatchingResponse mid f) with
    | some m => simp [h]
    | none => simpa [h] using ih

end Lemmas

/-- Claim C1 (code behavior at the failing input): `s-2`'s
`respond_to_query` delivers the response for message id `s-1-t0` into
`s-1`'s inbox with `from = "s-2"`, but `_wait_for_response` polls the
TARGET's (`s-2`'s) inbox for messages with `from = "s-1"`, so `query_agent`
with `wait_for_response = true` times out even though the matching response
is already sitting in `s-1`'s inbox, and the response is not removed.  The
claimed behavior (return `received` with `s-2`'s content, consuming exactly
that response) never occurs. -/
theorem c1_waiter_never_finds_response :
    (respond_to_query twoAgentStore 120 "p1" "s-2" "s-1" "s-1-t0" "has id,email" "t1").2 =
      "response_sent" ∧
    inboxOf (respond_to_query twoAgentStore 120 "p1" "s-2" "s-1" "s-1-t0" "has id,email" "t1").1
      "p1" "s-1" =
      [Message.response "response-s-1-t0" "s-2" "s-1-t0" "has id,email" "t1"] ∧
    (query_agent
        (respond_to_query twoAgentStore 120 "p1" "s-2" "s-1" "s-1-t0" "has id,email" "t1").1
        120 "p1" "s-1" "s-2" "interface" "User?" true 60 "t0").2 =
      QueryResult.timeout "No response received" ∧
    inboxOf (query_agent
        (respond_to_query twoAgentStore 120 "p1" "s-2" "s-1" "s-1-t0" "has id,email" "t1").1
        120 "p1" "s-1" "s-2" "interface" "User?" true 60 "t0").1 "p1" "s-1" =
      [Message.response "response-s-1-t0" "s-2" "s-1-t0" "has id,email" "t1"] := by
  refine ⟨rfl, by decide, by decide, by decide⟩

/-- Claim C2 counterexample: `announce_file_change` performs no check against
the agents hash, so on a store with no registered agents at all the session
`s1` still acquires the lock on `f.ts` — at the moment of the write (and
after it) `s1` is not a key of the project's agents hash, refuting the
claimed invariant. -/
theorem c2_unregistered_session_lock_counterexample :
    (announce_file_change emptyStore 120 "p1" "s1" "f.ts" "create" "d" "t0").2 =
      AnnounceResult.locked "f.ts" ∧
    hget (announce_file_change emptyStore 120 "p1" "s1" "f.ts" "create" "d" "t0").1.locks
      ("p1", "f.ts") =
      some { session := "s1", locked_at := "t0", change_type := "create", description := "d" } ∧
    hget emptyStore.agents ("p1", "s1") = none ∧
    hget (announce_file_change emptyStore 120 "p1" "s1" "f.ts" "create" "d" "t0").1.agents
      ("p1", "s1") = none := by
  refine ⟨by decide, by decide, rfl, by decide⟩

/-- Claim C2 (amended): a successful `announce_file_change` writes a lock
whose `session` field is the announcing session, with no requirement that
the session be registered in the agents hash; and after an
`unregister_agent(p, s)` that does not fail with `not_found`, no lock owned
by `s` remains in project `p`'s locks hash. -/
theorem c2_lock_session_amended (st : Store) (hbT : Nat) (p s path ct d now : String) :
    ((hget st.locks (p, path) = none ∨
        ∃ l, hget st.locks (p, path) = some l ∧ l.session = s) →
      (announce_file_change st hbT p s path ct d now).2 = AnnounceResult.locked path ∧
      hget (announce_file_change st hbT p s path ct d now).1.locks (p, path) =
        some { session := s, locked_at := now, change_type := ct, description := d }) ∧
    (∀ now2, (unregister_agent st p s now2).2 ≠ UnregisterResult.not_found →
      ∀ path2 l, hget (unregister_agent st p s now2).1.locks (p, path2) = some l →
        l.session ≠ s) := by
  constructor
  · intro h
    rcases h with h | ⟨l, hl, heq⟩
    · simp [announce_file_change, h, announce_write, update_heartbeat, broadcast_event,
        hget_hset_self]
    · have hb : (l.session != s) = false := by simp [heq]
      simp [announce_file_change, hl, hb, announce_write, update_heartbeat, broadcast_event,
        hget_hset_self]
  · intro now2 hne path2 l hl
    by_cases hex : hexists st.agents (p, s)
    · have hlocks : (unregister_agent st p s now2).1.locks =
          (releaseLoop (st.locks.filter (fun e => e.1.1 == p)) s st.locks).1 := by
        simp [unregister_agent, hex, cleanup_dead_agent, broadcast_event]
      rw [hlocks] at hl
      intro hsess
      have hmem := hget_mem hl
      rcases releaseLoop_mem hmem with ⟨hmem', hall⟩
      have hitem : ((p, path2), l) ∈ st.locks.filter (fun e => e.1.1 == p) :=
        List.mem_filter.mpr ⟨hmem', by simp⟩
      exact hall _ hitem hsess rfl
    · have hexF : hexists st.agents (p, s) = false := by
        simpa using hex
      simp [unregister_agent, hexF] at hne

/-- Claim C2 witness: `s-1` (who holds `a.ts` in `lockedStore`) successfully
re-announces, so the lock-write branch fires; and unregistering `s-1` from
`lockedStoreB` (where `s-2` holds `b.ts`) leaves only non-`s-1` locks, here
instantiated at the surviving lock `lockB`. -/
theorem c2_lock_session_amended_witness :
    (announce_file_change lockedStore 120 "p1" "s-1" "a.ts" "modify" "d2" "t2").2 =
      AnnounceResult.locked "a.ts" ∧ ("s-2" : String) ≠ "s-1" := by
  constructor
  · exact ((c2_lock_session_amended lockedStore 120 "p1" "s-1" "a.ts" "modify" "d2" "t2").1
      (Or.inr ⟨lockA, by decide, by decide⟩)).1
  · exact (c2_lock_session_amended lockedStoreB 120 "p1" "s-1" "x" "y" "z" "t2").2 "t3"
      (by decide) "b.ts" lockB (by decide)

/-- Claim C3 counterexample: on any store (here the empty one) the cleanup
cascade's deletion trace is lock releases, then the agent record, then the
inbox, then the todos — the agent record is deleted second, not last, so the
spec's prescribed order (locks, todos, inbox, agent record) does not hold. -/
theorem c3_cleanup_order_counterexample :
    ¬ specCleanupOrder "p1" "s1" (cleanup_dead_agent emptyStore "p1" "s1").2 := by
  decide

/-- Claim C3 (amended): the cleanup cascade performs its deletions in the
order: first the session's file-lock releases, second the agent record,
third the inbox, and last the todos. -/
theorem c3_cleanup_order_amended (st : Store) (p s : String) :
    ∃ lockDels : List Eff,
      (∀ e ∈ lockDels, Eff.isLockDel e = true) ∧
      (cleanup_dead_agent st p s).2 =
        lockDels ++ [Eff.hdelAgent p s, Eff.delInbox p s, Eff.delTodos p s] := by
  refine ⟨(releaseLoop (st.locks.filter (fun e => e.1.1 == p)) s st.locks).2, ?_, rfl⟩
  intro e he
  rw [releaseLoop_trace] at he
  rcases List.mem_map.mp he with ⟨x, _, hx⟩
  rw [← hx]
  rfl

/-- Claim C3 witness: instantiating the amended order statement on the empty
store shows its trailing-deletions suffix is realized (the trace has at
least the three fixed trailing deletions). -/
theorem c3_cleanup_order_amended_witness :
    3 ≤ (cleanup_dead_agent emptyStore "p1" "s1").2.length := by
  obtain ⟨lockDels, _, heq⟩ := c3_cleanup_order_amended emptyStore "p1" "s1"
  rw [heq]
  simp

/-- Claim C4 counterexample: `register_agent` deletes the session's old
todos but never deletes the session's inbox: a stale message enqueued before
registration is still in `s-1`'s inbox after `register_agent` returns,
refuting the clause "deletes ... any pre-existing inbox messages". -/
theorem c4_register_inbox_counterexample :
    inboxOf staleInboxStore "p1" "s-1" = [Message.broadcast "x" "note" "old" "t0"] ∧
    inboxOf (register_agent staleInboxStore 120 "p1" "s-1" "T1" "b" "d" "t1").1 "p1" "s-1" =
      [Message.broadcast "x" "note" "old" "t0"] ∧
    hget (register_agent staleInboxStore 120 "p1" "s-1" "T1" "b" "d" "t1").1.todos
      ("p1", "s-1") = none := by
  refine ⟨rfl, by decide, by decide⟩

/-- Claim C4 (amended): `register_agent` writes the agent record (overwriting
any prior record under that session name), arms the session's heartbeat,
deletes any pre-existing todos (but leaves the session's inbox untouched),
and returns exactly the other currently registered session names, never
including the registering session itself. -/
theorem c4_register_agent_amended (st : Store) (hbT : Nat) (p s tid br d now : String) :
    hget (register_agent st hbT p s tid br d now).1.agents (p, s) =
      some { task_id := tid, branch := br, description := d, status := "active",
             started_at := now, project_id := p } ∧
    hget (register_agent st hbT p s tid br d now).1.heartbeat (p, s) = some (hbT, now) ∧
    hget (register_agent st hbT p s tid br d now).1.todos (p, s) = none ∧
    hget (register_agent st hbT p s tid br d now).1.inbox (p, s) = hget st.inbox (p, s) ∧
    s ∉ (register_agent st hbT p s tid br d now).2.other_active_agents ∧
    ∀ s', s' ∈ (register_agent st hbT p s tid br d now).2.other_active_agents ↔
      (s' ≠ s ∧ ∃ a, hget (register_agent st hbT p s tid br d now).1.agents (p, s') = some a) := by
  have hagents : (register_agent st hbT p s tid br d now).1.agents =
      hset st.agents (p, s)
        { task_id := tid, branch := br, description := d, status := "active",
          started_at := now, project_id := p } := by
    simp [register_agent, update_heartbeat, broadcast_event]
  have hother : (register_agent st hbT p s tid br d now).2.other_active_agents =
      (hkeysP (hset st.agents (p, s)
        { task_id := tid, branch := br, description := d, status := "active",
          started_at := now, project_id := p }) p).filter (fun x => x != s) := by
    simp [register_agent, update_heartbeat, broadcast_event]
  refine ⟨?_, ?_, ?_, ?_, ?_, ?_⟩
  · rw [hagents]
    exact hget_hset_self _ _ _
  · simp [register_agent, update_heartbeat, broadcast_event, hget_hset_self]
  · simp [register_agent, update_heartbeat, broadcast_event, hget_hdel_self]
  · show hget (broadcast_event _ p _ now (some s)).inbox (p, s) = hget st.inbox (p, s)
    rw [broadcast_event_inbox_exclude]
    rfl
  · rw [hother]
    intro hmem
    have := (List.mem_filter.mp hmem).2
    simp at this
  · intro s'
    rw [hother, ← hagents]
    constructor
    · intro hs'
      have h1 := List.mem_filter.mp hs'
      refine ⟨by simpa using h1.2, ?_⟩
      rcases mem_hkeysP.mp h1.1 with ⟨a, ha⟩
      rw [hagents]
      exact hget_isSome_iff.mpr ⟨a, ha⟩
    · rintro ⟨hne, a, ha⟩
      apply List.mem_filter.mpr
      rw [hagents] at ha
      rcases hget_isSome_iff.mp ⟨a, ha⟩ with ⟨w, hw⟩
      exact ⟨mem_hkeysP.mpr ⟨w, hw⟩, by simpa using hne⟩

/-- Claim C4 witness: registering `s-3` into a project where `s-1` and `s-2`
are present reports `s-1` among the others (but the registering session is
armed and the membership characterization applies). -/
theorem c4_register_agent_amended_witness :
    "s-1" ∈ (register_agent twoAgentStore 120 "p1" "s-3" "T3" "b3" "d3" "t1").2.other_active_agents ∧
    hget (register_agent twoAgentStore 120 "p1" "s-3" "T3" "b3" "d3" "t1").1.heartbeat
      ("p1", "s-3") = some (120, "t1") := by
  constructor
  · exact ((c4_register_agent_amended twoAgentStore 120 "p1" "s-3" "T3" "b3" "d3" "t1").2.2.2.2.2
      "s-1").mpr ⟨by decide, agentA, by decide⟩
  · exact (c4_register_agent_amended twoAgentStore 120 "p1" "s-3" "T3" "b3" "d3" "t1").2.1

/-- Claim C5 counterexample: with `HEARTBEAT_TIMEOUT=60` in the environment,
`__init__` still sets `heartbeat_timeout` to the literal 120 (the variable is
never read), so heartbeats are armed with `SETEX` TTL 120, not 60. -/
theorem c5_heartbeat_env_counterexample :
    getenv [("HEARTBEAT_TIMEOUT", "60")] "HEARTBEAT_TIMEOUT" = some "60" ∧
    (serverInit [("HEARTBEAT_TIMEOUT", "60")] none).heartbeat_timeout = 120 ∧
    hget (update_heartbeat emptyStore
        (serverInit [("HEARTBEAT_TIMEOUT", "60")] none).heartbeat_timeout
        "p1" "s1" "t0").heartbeat ("p1", "s1") = some (120, "t0") ∧
    (120 : Nat) ≠ 60 := by
  refine ⟨rfl, rfl, by decide, by decide⟩

/-- Claim C5 (amended): the heartbeat TTL is the constant 120 seconds for
every environment and constructor argument — `__init__` never consults the
`HEARTBEAT_TIMEOUT` environment variable — and every heartbeat re-arm uses
`SETEX` with that TTL. -/
theorem c5_heartbeat_ttl_amended (env : List (String × String)) (arg : Option String)
    (st : Store) (p s now : String) :
    (serverInit env arg).heartbeat_timeout = 120 ∧
    hget (update_heartbeat st (serverInit env arg).heartbeat_timeout p s now).heartbeat
      (p, s) = some (120, now) := by
  exact ⟨rfl, by simp [serverInit, update_heartbeat, hget_hset_self]⟩

/-- Claim C6 counterexample: `mark_task_completed` returns `"success"` but
performs no heartbeat update at all — on a store with no heartbeat armed for
`s1`, the heartbeat key is still absent after the call, refuting "every
session-taking handler re-arms the heartbeat on success; in particular
`mark_task_completed`". -/
theorem c6_mark_completed_heartbeat_counterexample :
    (mark_task_completed emptyStore "p1" "s1" "T1" "t0").2 = "success" ∧
    hget emptyStore.heartbeat ("p1", "s1") = none ∧
    hget (mark_task_completed emptyStore "p1" "s1" "T1" "t0").1.heartbeat ("p1", "s1") = none := by
  refine ⟨rfl, rfl, by decide⟩

/-- Claim C6 (amended): every session-taking tool handler except
`mark_task_completed` and `unregister_agent` re-arms the caller's heartbeat
with `SETEX(heartbeat_timeout)` on success (`query_agent` when the recipient
exists, `announce_file_change` on `locked`, `release_file_lock` on
`released`, the rest unconditionally); `mark_task_completed` and
`unregister_agent` leave the heartbeat store untouched. -/
theorem c6_heartbeat_rearm_amended (st : Store) (hbT : Nat) (p s now : String) :
    (∀ tid br d,
      hget (register_agent st hbT p s tid br d now).1.heartbeat (p, s) = some (hbT, now)) ∧
    hget (heartbeat_tool st hbT p s now).1.heartbeat (p, s) = some (hbT, now) ∧
    (∀ txt pr,
      hget (add_todo st hbT p s txt pr now).1.heartbeat (p, s) = some (hbT, now)) ∧
    (∀ tdid tstat,
      hget (update_todo st hbT p s tdid tstat now).1.heartbeat (p, s) = some (hbT, now)) ∧
    hget (get_my_todos st hbT p s now).1.heartbeat (p, s) = some (hbT, now) ∧
    (∀ toS qt q w fuel, hexists st.agents (p, toS) = true →
      hget (query_agent st hbT p s toS qt q w fuel now).1.heartbeat (p, s) = some (hbT, now)) ∧
    hget (check_messages st hbT p s now).1.heartbeat (p, s) = some (hbT, now) ∧
    (∀ toS mid resp,
      hget (respond_to_query st hbT p s toS mid resp now).1.heartbeat (p, s) = some (hbT, now)) ∧
    (∀ path ct d,
      (announce_file_change st hbT p s path ct d now).2 = AnnounceResult.locked path →
      hget (announce_file_change st hbT p s path ct d now).1.heartbeat (p, s) = some (hbT, now)) ∧
    (∀ path, (release_file_lock st hbT p s path now).2 = ReleaseResult.released path →
      hget (release_file_lock st hbT p s path now).1.heartbeat (p, s) = some (hbT, now)) ∧
    (∀ iname idefn ifp,
      hget (register_interface st hbT p s iname idefn ifp now).1.heartbeat (p, s) =
        some (hbT, now)) ∧
    (∀ mt c,
      hget (broadcast_message st hbT p s mt c now).1.heartbeat (p, s) = some (hbT, now)) ∧
    (∀ tid, (mark_task_completed st p s tid now).1.heartbeat = st.heartbeat) ∧
    (unregister_agent st p s now).1.heartbeat = st.heartbeat := by
  refine ⟨?_, ?_, ?_, ?_, ?_, ?_, ?_, ?_, ?_, ?_, ?_, ?_, ?_, ?_⟩
  · intro tid br d
    simp [register_agent, update_heartbeat, broadcast_event, hget_hset_self]
  · simp [heartbeat_tool, update_heartbeat, hget_hset_self]
  · intro txt pr
    simp [add_todo, update_heartbeat, hget_hset_self]
  · intro tdid tstat
    simp [update_todo, update_heartbeat, broadcast_event, hget_hset_self]
  · simp [get_my_todos, update_heartbeat, hget_hset_self]
  · intro toS qt q w fuel hex
    cases w with
    | false => simp [query_agent, hex, update_heartbeat, hget_hset_self]
    | true =>
      simp only [query_agent, hex, Bool.not_true, Bool.false_eq_true, if_false,
        Bool.not_false, if_true]
      rw [wait_for_response_heartbeat]
      simp [update_heartbeat, hget_hset_self]
  · simp [check_messages, update_heartbeat, hget_hset_self]
  · intro toS mid resp
    simp [respond_to_query, update_heartbeat, hget_hset_self]
  · intro path ct d hres
    cases hl : hget st.locks (p, path) with
    | none =>
      simp [announce_file_change, hl, announce_write, update_heartbeat, broadcast_event,
        hget_hset_self]
    | some l =>
      cases hb : (l.session != s) with
      | true => simp [announce_file_change, hl, hb] at hres
      | false =>
        simp [announce_file_change, hl, hb, announce_write, update_heartbeat, broadcast_event,
          hget_hset_self]
  · intro path hres
    cases hl : hget st.locks (p, path) with
    | none => simp [release_file_lock, hl] at hres
    | some l =>
      cases hb : (l.session != s) with
      | true => simp [release_file_lock, hl, hb] at hres
      | false =>
        simp [release_file_lock, hl, hb, update_heartbeat, broadcast_event, hget_hset_self]
  · intro iname idefn ifp
    simp [register_interface, update_heartbeat, broadcast_event, hget_hset_self]
  · intro mt c
    simp [broadcast_message, update_heartbeat, hget_hset_self]
  · intro tid
    cases h : hget st.agents (p, s) <;> simp [mark_task_completed, h]
  · by_cases hex : hexists st.agents (p, s)
    · simp [unregister_agent, hex, cleanup_dead_agent, broadcast_event]
    · have hexF : hexists st.agents (p, s) = false := by simpa using hex
      simp [unregister_agent, hexF]

/-- Claim C6 witness: the conditional conjuncts realized concretely —
`query_agent` to the registered `s-2`, a successful `announce_file_change`,
a successful `release_file_lock`, and the untouched heartbeat store of
`mark_task_completed`. -/
theorem c6_heartbeat_rearm_amended_witness :
    hget (query_agent twoAgentStore 120 "p1" "s-1" "s-2" "q" "c" false 0 "t1").1.heartbeat
      ("p1", "s-1") = some (120, "t1") ∧
    hget (announce_file_change twoAgentStore 120 "p1" "s-1" "a.ts" "create" "d" "t1").1.heartbeat
      ("p1", "s-1") = some (120, "t1") ∧
    hget (release_file_lock lockedStore 120 "p1" "s-1" "a.ts" "t1").1.heartbeat
      ("p1", "s-1") = some (120, "t1") ∧
    (mark_task_completed twoAgentStore "p1" "s-1" "T1" "t1").1.heartbeat =
      twoAgentStore.heartbeat := by
  refine ⟨?_, ?_, ?_, ?_⟩
  · exact (c6_heartbeat_rearm_amended twoAgentStore 120 "p1" "s-1" "t1").2.2.2.2.2.1
      "s-2" "q" "c" false 0 (by decide)
  · exact (c6_heartbeat_rearm_amended twoAgentStore 120 "p1" "s-1" "t1").2.2.2.2.2.2.2.2.1
      "a.ts" "create" "d" (by decide)
  · exact (c6_heartbeat_rearm_amended lockedStore 120 "p1" "s-1" "t1").2.2.2.2.2.2.2.2.2.1
      "a.ts" (by decide)
  · exact (c6_heartbeat_rearm_amended twoAgentStore 120 "p1" "s-1" "t1").2.2.2.2.2.2.2.2.2.2.2.2.1
      "T1"

/-- Claim C7: `release_file_lock` is a trichotomy.  If no lock exists for the
path it returns `not_locked`; if the lock exists but its session differs from
the caller it returns a not-owner error and the locks hash is unchanged; if
the caller owns the lock, the lock entry is deleted and the call returns
`released`.  In the first two cases the locks hash is unchanged. -/
theorem c7_release_trichotomy (st : Store) (hbT : Nat) (p s path now : String) :
    (hget st.locks (p, path) = none →
      (release_file_lock st hbT p s path now).2 = ReleaseResult.not_locked ∧
      (release_file_lock st hbT p s path now).1.locks = st.locks) ∧
    (∀ l, hget st.locks (p, path) = some l → l.session ≠ s →
      (release_file_lock st hbT p s path now).2 =
        ReleaseResult.not_owner ("File is locked by " ++ l.session ++ ", not you") ∧
      (release_file_lock st hbT p s path now).1.locks = st.locks) ∧
    (∀ l, hget st.locks (p, path) = some l → l.session = s →
      (release_file_lock st hbT p s path now).2 = ReleaseResult.released path ∧
      (release_file_lock st hbT p s path now).1.locks = hdel st.locks (p, path) ∧
      hget (release_file_lock st hbT p s path now).1.locks (p, path) = none) := by
  refine ⟨?_, ?_, ?_⟩
  · intro h
    simp [release_file_lock, h]
  · intro l hl hne
    have hb : (l.session != s) = true := by simp [hne]
    simp [release_file_lock, hl, hb]
  · intro l hl heq
    have hb : (l.session != s) = false := by simp [heq]
    simp [release_file_lock, hl, hb, update_heartbeat, broadcast_event, hget_hdel_self]

/-- Claim C7 witness: the three branches of the trichotomy realized on a
concrete store in which `s-1` holds the lock on `a.ts` and `b.ts` is free. -/
theorem c7_release_trichotomy_witness :
    (release_file_lock lockedStore 120 "p1" "s-1" "b.ts" "t1").2 = ReleaseResult.not_locked ∧
    (release_file_lock lockedStore 120 "p1" "s-2" "a.ts" "t1").2 =
      ReleaseResult.not_owner ("File is locked by " ++ "s-1" ++ ", not you") ∧
    (release_file_lock lockedStore 120 "p1" "s-1" "a.ts" "t1").2 = ReleaseResult.released "a.ts" ∧
    hget (release_file_lock lockedStore 120 "p1" "s-1" "a.ts" "t1").1.locks ("p1", "a.ts") = none := by
  refine ⟨?_, ?_, ?_, ?_⟩
  · exact ((c7_release_trichotomy lockedStore 120 "p1" "s-1" "b.ts" "t1").1 (by decide)).1
  · exact ((c7_release_trichotomy lockedStore 120 "p1" "s-2" "a.ts" "t1").2.1 lockA (by decide)
      (by decide)).1
  · exact ((c7_release_trichotomy lockedStore 120 "p1" "s-1" "a.ts" "t1").2.2 lockA (by decide)
      (by decide)).1
  · exact ((c7_release_trichotomy lockedStore 120 "p1" "s-1" "a.ts" "t1").2.2 lockA (by decide)
      (by decide)).2.2

/-- Claim C8: `announce_file_change` is idempotent for the lock owner: when
the existing lock on the path is owned by the announcing session, the call
returns `locked` and the lock is rewritten still owned by that session; a
`conflict` (carrying the current lock info) is returned only when the
existing lock belongs to a different session, and then the store is left
entirely unchanged. -/
theorem c8_announce_idempotent (st : Store) (hbT : Nat) (p s path ct d now : String) :
    (∀ l, hget st.locks (p, path) = some l → l.session = s →
      (announce_file_change st hbT p s path ct d now).2 = AnnounceResult.locked path ∧
      hget (announce_file_change st hbT p s path ct d now).1.locks (p, path) =
        some { session := s, locked_at := now, change_type := ct, description := d }) ∧
    (∀ l, hget st.locks (p, path) = some l → l.session ≠ s →
      (announce_file_change st hbT p s path ct d now).2 = AnnounceResult.conflict l ∧
      (announce_file_change st hbT p s path ct d now).1 = st) := by
  constructor
  · intro l hl heq
    have hb : (l.session != s) = false := by simp [heq]
    simp [announce_file_change, hl, hb, announce_write, update_heartbeat, broadcast_event,
      hget_hset_self]
  · intro l hl hne
    have hb : (l.session != s) = true := by simp [hne]
    simp [announce_file_change, hl, hb]

/-- Claim C8 witness: `s-1` re-announcing its own lock on `a.ts` succeeds and
keeps ownership; `s-2` announcing the same path gets a `conflict` carrying
the current lock and the store is unchanged. -/
theorem c8_announce_idempotent_witness :
    (announce_file_change lockedStore 120 "p1" "s-1" "a.ts" "modify" "again" "t2").2 =
      AnnounceResult.locked "a.ts" ∧
    hget (announce_file_change lockedStore 120 "p1" "s-1" "a.ts" "modify" "again" "t2").1.locks
      ("p1", "a.ts") =
      some { session := "s-1", locked_at := "t2", change_type := "modify", description := "again" } ∧
    (announce_file_change lockedStore 120 "p1" "s-2" "a.ts" "modify" "mine" "t2").2 =
      AnnounceResult.conflict lockA ∧
    (announce_file_change lockedStore 120 "p1" "s-2" "a.ts" "modify" "mine" "t2").1 = lockedStore := by
  refine ⟨?_, ?_, ?_, ?_⟩
  · exact ((c8_announce_idempotent lockedStore 120 "p1" "s-1" "a.ts" "modify" "again" "t2").1
      lockA (by decide) (by decide)).1
  · exact ((c8_announce_idempotent lockedStore 120 "p1" "s-1" "a.ts" "modify" "again" "t2").1
      lockA (by decide) (by decide)).2
  · exact ((c8_announce_idempotent lockedStore 120 "p1" "s-2" "a.ts" "modify" "mine" "t2").2
      lockA (by decide) (by decide)).1
  · exact ((c8_announce_idempotent lockedStore 120 "p1" "s-2" "a.ts" "modify" "mine" "t2").2
      lockA (by decide) (by decide)).2

/-- Claim C9: `check_messages` returns the full inbox contents in enqueue
(FIFO) order, exactly once, and deletes the inbox key: after the call the
inbox is empty, and a message enqueued by `rpush` before the call appears at
the end of the returned list. -/
theorem c9_check_messages_flush (st : Store) (hbT : Nat) (p s now : String) :
    (check_messages st hbT p s now).2 = inboxOf st p s ∧
    hget (check_messages st hbT p s now).1.inbox (p, s) = none ∧
    inboxOf (check_messages st hbT p s now).1 p s = [] ∧
    ∀ m : Message,
      (check_messages { st with inbox := rpush st.inbox (p, s) m } hbT p s now).2 =
        inboxOf st p s ++ [m] := by
  refine ⟨rfl, ?_, ?_, ?_⟩
  · simp [check_messages, update_heartbeat, hget_hdel_self]
  · simp [inboxOf, lrangeAll, check_messages, update_heartbeat, hget_hdel_self]
  · intro m
    simp [check_messages, inboxOf, lrangeAll, rpush, hget_hset_self]

/-- Claim C10: `mark_task_completed` never fails on an unregistered session:
it always writes the completion record and returns `"success"`; the flip of
the agent record's status to `completed` happens exactly when the record
exists, and when the session is absent the agents hash is left untouched. -/
theorem c10_mark_completed_total (st : Store) (p s tid now : String) :
    (mark_task_completed st p s tid now).2 = "success" ∧
    hget (mark_task_completed st p s tid now).1.completed_tasks (p, tid) =
      some { task_id := tid, session_name := s, completed_at := now } ∧
    (hget st.agents (p, s) = none →
      (mark_task_completed st p s tid now).1.agents = st.agents) ∧
    (∀ a, hget st.agents (p, s) = some a →
      hget (mark_task_completed st p s tid now).1.agents (p, s) =
        some { a with status := "completed" }) := by
  refine ⟨?_, ?_, ?_, ?_⟩
  · cases h : hget st.agents (p, s) <;> simp [mark_task_completed, h]
  · cases h : hget st.agents (p, s) <;>
      simp [mark_task_completed, h, hget_hset_self]
  · intro h
    simp [mark_task_completed, h]
  · intro a ha
    simp [mark_task_completed, ha, hget_hset_self]

/-- Claim C10 witness: completing task `T9` for the unregistered session
`s-9` still succeeds, records the completion, and leaves the agents hash
unchanged. -/
theorem c10_mark_completed_total_witness :
    (mark_task_completed twoAgentStore "p1" "s-9" "T9" "t5").2 = "success" ∧
    hget (mark_task_completed twoAgentStore "p1" "s-9" "T9" "t5").1.completed_tasks ("p1", "T9") =
      some { task_id := "T9", session_name := "s-9", completed_at := "t5" } ∧
    (mark_task_completed twoAgentStore "p1" "s-9" "T9" "t5").1.agents = twoAgentStore.agents := by
  refine ⟨(c10_mark_completed_total twoAgentStore "p1" "s-9" "T9" "t5").1,
    (c10_mark_completed_total twoAgentStore "p1" "s-9" "T9" "t5").2.1,
    (c10_mark_completed_total twoAgentStore "p1" "s-9" "T9" "t5").2.2.1 (by decide)⟩

end SplitMind
